import Mathlib

/-!
Formal model of the Nebula Trips backend (`src/main.py`): salted password
hashing (`hash_password`), the registration handler (`register`), the
health probe (`test_database`) and the WebSocket deal broadcaster
(`deals_streamer`).  The document store (`database.py`) is an external
collaborator modelled from the spec as an opaque find/insert store; the
random source and the wall clock are passed as explicit inputs.
-/

namespace NebulaTrips

/-- Numeric value of a hex digit character, as accepted by Python
`bytes.fromhex`: `0`-`9`, `a`-`f`, `A`-`F`; `none` for any other character. -/
def hexDigitVal (c : Char) : Option Nat :=
  if 48 ≤ c.toNat ∧ c.toNat ≤ 57 then some (c.toNat - 48)
  else if 97 ≤ c.toNat ∧ c.toNat ≤ 102 then some (c.toNat - 87)
  else if 65 ≤ c.toNat ∧ c.toNat ≤ 70 then some (c.toNat - 55)
  else none

/-- Lowercase hex digit character for a value below 16, as produced by
Python `bytes.hex()`. -/
def hexDigitChar (n : Nat) : Char :=
  match n with
  | 0 => '0' | 1 => '1' | 2 => '2' | 3 => '3' | 4 => '4'
  | 5 => '5' | 6 => '6' | 7 => '7' | 8 => '8' | 9 => '9'
  | 10 => 'a' | 11 => 'b' | 12 => 'c' | 13 => 'd' | 14 => 'e'
  | _ => 'f'

/-- Python `bytes.fromhex` on a character list: two hex digits per byte;
`none` models the `ValueError` raised on an odd digit count or a non-hex
character. -/
def bytesFromHexList : List Char → Option (List Nat)
  | [] => some []
  | [_] => none
  | c1 :: c2 :: rest =>
    match hexDigitVal c1, hexDigitVal c2, bytesFromHexList rest with
    | some h, some l, some bs => some ((16 * h + l) :: bs)
    | _, _, _ => none

/-- Python `bytes.fromhex` on a string. -/
def bytesFromHex (s : String) : Option (List Nat) :=
  bytesFromHexList s.data

/-- Python `bytes.hex()` on a byte list: two lowercase hex digits per byte. -/
def bytesToHexList (bs : List Nat) : List Char :=
  bs.flatMap (fun b => [hexDigitChar (b / 16), hexDigitChar (b % 16)])

/-- Python `bytes.hex()` as a string. -/
def bytesToHex (bs : List Nat) : String :=
  ⟨bytesToHexList bs⟩

/-- Lowercase normalization of a hex digit character (`A`-`F` to `a`-`f`,
anything else unchanged). -/
def hexLower (c : Char) : Char :=
  if c.toNat = 65 then 'a' else if c.toNat = 66 then 'b'
  else if c.toNat = 67 then 'c' else if c.toNat = 68 then 'd'
  else if c.toNat = 69 then 'e' else if c.toNat = 70 then 'f' else c

/-- Lowercase normalization of a hex string. -/
def lowerHexStr (s : String) : String :=
  ⟨s.data.map hexLower⟩

/-- A character that can appear in the output of `bytes.hex()`:
a decimal digit or a lowercase `a`-`f`. -/
def isLowerHexChar (c : Char) : Prop :=
  (48 ≤ c.toNat ∧ c.toNat ≤ 57) ∨ (97 ≤ c.toNat ∧ c.toNat ≤ 102)

instance (c : Char) : Decidable (isLowerHexChar c) := by
  unfold isLowerHexChar; infer_instance

/-- A string all of whose characters are lowercase hex digits. -/
def isLowerHexStr (s : String) : Prop :=
  ∀ c ∈ s.data, isLowerHexChar c

/-- UTF-8 encoding of one code point (as in Python `str.encode("utf-8")`). -/
def utf8EncodeChar (n : Nat) : List Nat :=
  if n < 128 then [n]
  else if n < 2048 then [192 + n / 64, 128 + n % 64]
  else if n < 65536 then [224 + n / 4096, 128 + n / 64 % 64, 128 + n % 64]
  else [240 + n / 262144, 128 + n / 4096 % 64, 128 + n / 64 % 64, 128 + n % 64]

/-- Python `password.encode("utf-8")`. -/
def utf8Bytes (s : String) : List Nat :=
  s.data.flatMap (fun c => utf8EncodeChar c.toNat)

/-- Modelled from the spec: `hashlib.scrypt` is an external Python-stdlib
primitive, not code of this repository.  The spec relies only on its
contract: a deterministic, memory-hard key-derivation function of the
password, the salt and fixed cost parameters that returns exactly `dklen`
bytes.  We model it as a fixed deterministic byte-valued function with
that output length; the numeric mixing below stands in for the real
primitive. -/
def scrypt (password salt : List Nat) (n r p dklen : Nat) : List Nat :=
  (List.range dklen).map
    (fun i => (password.foldl (fun a b => a * 31 + b) 7 +
               salt.foldl (fun a b => a * 33 + b) 11 + n + r + p + i) % 256)

/-- Modelled from the spec: `secrets.token_bytes(k)` draws `k` bytes from a
cryptographically secure random source.  The source is modelled as an
explicit input `rand`; the call reads its first `k` bytes. -/
def token_bytes (rand : Nat → Nat) (k : Nat) : List Nat :=
  (List.range k).map (fun i => rand i % 256)

/-- Model of `hash_password` (src/main.py lines 28-34).  The secure random
source is the explicit input `rand`; the `none` result models the
`ValueError` raised by `bytes.fromhex` on an invalid hex string. -/
def hash_password (password : String) (salt_hex : Option String)
    (rand : Nat → Nat) : Option (String × String) :=
  match salt_hex with
  | none =>
    let salt := token_bytes rand 16
    some (bytesToHex salt,
          bytesToHex (scrypt (utf8Bytes password) salt (2 ^ 14) 8 1 32))
  | some s =>
    match bytesFromHex s with
    | none => none
    | some salt =>
      some (bytesToHex salt,
            bytesToHex (scrypt (utf8Bytes password) salt (2 ^ 14) 8 1 32))

/-- The fresh-salt path of `hash_password`: the call
`hash_password(req.password)` in `register` supplies no salt. -/
def hash_password_fresh (password : String) (rand : Nat → Nat) :
    String × String :=
  let salt := token_bytes rand 16
  (bytesToHex salt,
   bytesToHex (scrypt (utf8Bytes password) salt (2 ^ 14) 8 1 32))

/-- The salt component of a `hash_password` result. -/
def saltComponent (r : Option (String × String)) : Option String :=
  r.map Prod.fst

/-- A fixed all-zero random source, used to instantiate theorems at
concrete inputs. -/
def rand0 : Nat → Nat := fun _ => 0

theorem hash_password_none_eq (password : String) (rand : Nat → Nat) :
    hash_password password none rand = some (hash_password_fresh password rand) :=
  rfl

theorem char_eq_of_toNat_eq {c d : Char} (h : c.toNat = d.toNat) : c = d :=
  Char.ext (UInt32.ext h)

theorem hexDigit_inv (c : Char) (v : Nat) (h : hexDigitVal c = some v) :
    v < 16 ∧ hexDigitChar v = hexLower c := by
  obtain ⟨n, hn⟩ : ∃ n, c.toNat = n := ⟨_, rfl⟩
  have hc : c = Char.ofNat n := by rw [← hn, Char.ofNat_toNat]
  subst hc
  unfold hexDigitVal at h
  rw [hn] at h
  by_cases h1 : 48 ≤ n ∧ n ≤ 57
  · rw [if_pos h1] at h
    injection h with hv
    subst hv
    obtain ⟨ha, hb⟩ := h1
    refine ⟨by omega, ?_⟩
    unfold hexLower
    rw [hn]
    interval_cases n <;> rfl
  · rw [if_neg h1] at h
    by_cases h2 : 97 ≤ n ∧ n ≤ 102
    · rw [if_pos h2] at h
      injection h with hv
      subst hv
      obtain ⟨ha, hb⟩ := h2
      refine ⟨by omega, ?_⟩
      unfold hexLower
      rw [hn]
      interval_cases n <;> rfl
    · rw [if_neg h2] at h
      by_cases h3 : 65 ≤ n ∧ n ≤ 70
      · rw [if_pos h3] at h
        injection h with hv
        subst hv
        obtain ⟨ha, hb⟩ := h3
        refine ⟨by omega, ?_⟩
        unfold hexLower
        rw [hn]
        interval_cases n <;> rfl
      · rw [if_neg h3] at h
        exact Option.noConfusion h

theorem hexDigitVal_hexDigitChar (v : Nat) (h : v < 16) :
    hexDigitVal (hexDigitChar v) = some v := by
  interval_cases v <;> rfl

theorem hexDigitChar_isLowerHex (v : Nat) (h : v < 16) :
    isLowerHexChar (hexDigitChar v) := by
  interval_cases v <;> decide

theorem hexDigitChar_isLowerHex_all (v : Nat) : isLowerHexChar (hexDigitChar v) := by
  unfold hexDigitChar
  split <;> decide

theorem bytesToHexList_from : ∀ (cs : List Char) (bs : List Nat),
    bytesFromHexList cs = some bs → bytesToHexList bs = cs.map hexLower
  | [], bs, h => by
    injection h with h
    rw [← h]
    rfl
  | [_], _, h => Option.noConfusion h
  | c1 :: c2 :: rest, bs, h => by
    unfold bytesFromHexList at h
    cases hv1 : hexDigitVal c1 with
    | none => rw [hv1] at h; exact Option.noConfusion h
    | some hh =>
      cases hv2 : hexDigitVal c2 with
      | none => rw [hv1, hv2] at h; exact Option.noConfusion h
      | some ll =>
        cases hrest : bytesFromHexList rest with
        | none => rw [hv1, hv2, hrest] at h; exact Option.noConfusion h
        | some tbs =>
          rw [hv1, hv2, hrest] at h
          injection h with h
          subst h
          obtain ⟨hh16, hhc⟩ := hexDigit_inv c1 hh hv1
          obtain ⟨ll16, llc⟩ := hexDigit_inv c2 ll hv2
          have e1 : (16 * hh + ll) / 16 = hh := by omega
          have e2 : (16 * hh + ll) % 16 = ll := by omega
          simp only [bytesToHexList, List.flatMap_cons, List.map_cons,
            List.cons_append, List.nil_append, e1, e2, hhc, llc]
          have ihres := bytesToHexList_from rest tbs hrest
          rw [← ihres]
          rfl

theorem bytesFromHexList_to (bs : List Nat) (h : ∀ b ∈ bs, b < 256) :
    bytesFromHexList (bytesToHexList bs) = some bs := by
  induction bs with
  | nil => rfl
  | cons b t ih =>
    have hb : b < 256 := h b (by simp)
    have hdiv : b / 16 < 16 := by omega
    have hmod : b % 16 < 16 := by omega
    have hexp : bytesToHexList (b :: t) =
        hexDigitChar (b / 16) :: hexDigitChar (b % 16) :: bytesToHexList t := by
      simp [bytesToHexList, List.flatMap_cons]
    rw [hexp]
    unfold bytesFromHexList
    rw [hexDigitVal_hexDigitChar (b / 16) hdiv,
        hexDigitVal_hexDigitChar (b % 16) hmod,
        ih (fun x hx => h x (by simp [hx]))]
    have hbe : 16 * (b / 16) + b % 16 = b := by omega
    show some ((16 * (b / 16) + b % 16) :: t) = some (b :: t)
    rw [hbe]

theorem bytesToHexList_length (bs : List Nat) :
    (bytesToHexList bs).length = 2 * bs.length := by
  induction bs with
  | nil => rfl
  | cons b t ih =>
    simp only [bytesToHexList, List.flatMap_cons] at ih ⊢
    simp [ih]
    omega

theorem bytesToHex_length (bs : List Nat) :
    (bytesToHex bs).length = 2 * bs.length :=
  bytesToHexList_length bs

theorem bytesToHex_isLowerHex (bs : List Nat) : isLowerHexStr (bytesToHex bs) := by
  intro c hc
  have hc2 : c ∈ bytesToHexList bs := hc
  rw [bytesToHexList, List.mem_flatMap] at hc2
  obtain ⟨b, _, hb⟩ := hc2
  simp only [List.mem_cons, List.not_mem_nil, or_false] at hb
  rcases hb with rfl | rfl
  · exact hexDigitChar_isLowerHex_all (b / 16)
  · exact hexDigitChar_isLowerHex_all (b % 16)

theorem scrypt_length (pw salt : List Nat) (n r p dklen : Nat) :
    (scrypt pw salt n r p dklen).length = dklen := by
  simp [scrypt]

theorem token_bytes_length (rand : Nat → Nat) (k : Nat) :
    (token_bytes rand k).length = k := by
  simp [token_bytes]

theorem token_bytes_lt (rand : Nat → Nat) (k : Nat) :
    ∀ b ∈ token_bytes rand k, b < 256 := by
  intro b hb
  simp only [token_bytes, List.mem_map] at hb
  obtain ⟨i, _, rfl⟩ := hb
  exact Nat.mod_lt _ (by omega)

theorem hash_password_fresh_salt (p : String) (rand : Nat → Nat) :
    (hash_password_fresh p rand).1 = bytesToHex (token_bytes rand 16) :=
  rfl

/-- C4: `hash_password` is deterministic given the same password and the
same supplied salt — the result does not depend on the random source. -/
theorem C4_hash_password_deterministic (p s : String) (r1 r2 : Nat → Nat) :
    hash_password p (some s) r1 = hash_password p (some s) r2 :=
  rfl

/-- C3 is false as stated: supplying the one-byte salt `"ab"` makes
`hash_password` return the two-character salt `"ab"`, not a 32-character
one. -/
theorem C3_counterexample_short_supplied_salt :
    saltComponent (hash_password "p" (some "ab") rand0) = some "ab" ∧
      ("ab" : String).length ≠ 32 := by
  exact ⟨rfl, by decide⟩

/-- C3 (amended): the derived key is always a 64-character lowercase hex
string (32 bytes) and the returned salt is always lowercase hex; a freshly
generated salt is 32 characters (16 bytes), while a supplied salt is
re-encoded from its decoded bytes, giving 32 characters exactly when the
supplied hex encoded 16 bytes. -/
theorem C3_hash_password_hex_shape (p : String) (shex : Option String)
    (rand : Nat → Nat) (r : String × String)
    (h : hash_password p shex rand = some r) :
    r.2.length = 64 ∧ isLowerHexStr r.2 ∧ isLowerHexStr r.1 ∧
      (shex = none → r.1.length = 32) ∧
      (∀ s bs, shex = some s → bytesFromHex s = some bs →
         r.1.length = 2 * bs.length) := by
  cases shex with
  | none =>
    rw [hash_password_none_eq] at h
    injection h with h
    subst h
    refine ⟨?_, ?_, ?_, fun _ => ?_, fun s bs hs => absurd hs (by simp)⟩
    · show (bytesToHex (scrypt (utf8Bytes p) (token_bytes rand 16)
        (2 ^ 14) 8 1 32)).length = 64
      rw [bytesToHex_length, scrypt_length]
    · exact bytesToHex_isLowerHex _
    · exact bytesToHex_isLowerHex _
    · show (bytesToHex (token_bytes rand 16)).length = 32
      rw [bytesToHex_length, token_bytes_length]
  | some s =>
    have h2 : (match bytesFromHex s with
        | none => none
        | some salt =>
          some (bytesToHex salt,
                bytesToHex (scrypt (utf8Bytes p) salt (2 ^ 14) 8 1 32))) = some r := h
    cases hbs : bytesFromHex s with
    | none => rw [hbs] at h2; exact Option.noConfusion h2
    | some salt =>
      rw [hbs] at h2
      injection h2 with h2
      subst h2
      refine ⟨?_, bytesToHex_isLowerHex _, bytesToHex_isLowerHex _,
        fun hcon => Option.noConfusion hcon, fun s2 bs hs2 hbs2 => ?_⟩
      · show (bytesToHex (scrypt (utf8Bytes p) salt (2 ^ 14) 8 1 32)).length = 64
        rw [bytesToHex_length, scrypt_length]
      · injection hs2 with hs2
        subst hs2
        rw [hbs2] at hbs
        injection hbs with hbs
        subst hbs
        exact bytesToHex_length _

theorem C3_hash_password_hex_shape_witness :
    (hash_password_fresh "p" rand0).2.length = 64 :=
  (C3_hash_password_hex_shape "p" none rand0 (hash_password_fresh "p" rand0) rfl).1

/-- C9: with a supplied salt that is valid hex, the returned salt is the
supplied string normalized to lowercase hex; in particular supplying the
salt returned by a previous fresh-salt call reproduces that salt exactly. -/
theorem C9_salt_lowercase_roundtrip :
    (∀ p s bs rand, bytesFromHex s = some bs →
       saltComponent (hash_password p (some s) rand) = some (lowerHexStr s)) ∧
    (∀ p1 rand1 sh, saltComponent (hash_password p1 none rand1) = some sh →
       ∀ p2 rand2, saltComponent (hash_password p2 (some sh) rand2) = some sh) := by
  constructor
  · intro p s bs rand h
    simp only [hash_password, h, saltComponent, Option.map_some]
    have := bytesToHexList_from s.data bs h
    show some (bytesToHex bs) = some (lowerHexStr s)
    rw [bytesToHex, this]
    rfl
  · intro p1 rand1 sh h p2 rand2
    have hsh : sh = bytesToHex (token_bytes rand1 16) := by
      rw [hash_password_none_eq] at h
      have h2 : some (hash_password_fresh p1 rand1).1 = some sh := h
      injection h2 with h2
      rw [← h2]
      rfl
    subst hsh
    have hdec : bytesFromHex (bytesToHex (token_bytes rand1 16)) =
        some (token_bytes rand1 16) :=
      bytesFromHexList_to (token_bytes rand1 16) (token_bytes_lt rand1 16)
    simp only [hash_password, hdec]
    rfl

theorem C9_salt_lowercase_roundtrip_witness :
    saltComponent (hash_password "pw" (some "Ab") rand0) = some "ab" := by
  have h := C9_salt_lowercase_roundtrip.1 "pw" "Ab" [171] rand0 (by rfl)
  rw [h]
  decide

/-- A stored document: an ordered association list of string fields and
string values, the model of the Python dict handed to the store. -/
abbrev Doc := List (String × String)

/-- Model of `db["authuser"].find_one({"email": email})`: the first stored
document whose `email` field equals the given email, if any. -/
def find_one (store : List Doc) (email : String) : Option Doc :=
  store.find? (fun d => d.lookup "email" == some email)

/-- Modelled from the spec: `create_document` lives in `database.py`, which
is not under `src/`.  The spec treats the store as an opaque external
collaborator ("document creation ... treated as an opaque store with
find/insert operations") whose insert stores the document and returns the
newly assigned identifier.  We model the collection as a list, insert as
append, and the assigned identifier as the decimal rendering of the prior
collection size. -/
def create_document (store : List Doc) (doc : Doc) : String × List Doc :=
  (toString store.length, store ++ [doc])

/-- One store operation performed by a handler, recorded so that theorems
can account for side effects. -/
inductive StoreOp where
  | find (email : String)
  | insert (doc : Doc)
deriving DecidableEq

/-- Number of insert operations in a trace. -/
def countInserts (tr : List StoreOp) : Nat :=
  tr.countP (fun op => match op with | .insert _ => true | _ => false)

/-- Result of the register handler: an `HTTPException` with status code and
detail, or the success body `{id, email}`. -/
inductive RegisterOutcome where
  | httpError (status : Nat) (detail : String)
  | success (id : String) (email : String)
deriving DecidableEq

/-- The credential document built by `register` just before insertion
(src/main.py lines 88-93). -/
def registerDoc (email password : String) (rand : Nat → Nat) : Doc :=
  [("email", email),
   ("password_salt", (hash_password_fresh password rand).1),
   ("password_hash", (hash_password_fresh password rand).2),
   ("provider", "email")]

/-- Model of `register` (src/main.py lines 78-95).  `dbOpt` is the
process-wide database handle (`none` when unconfigured), carrying the
`authuser` collection as a list of documents.  Returns the outcome, the
resulting handle, and the trace of store operations performed, in order. -/
def register (dbOpt : Option (List Doc)) (email password : String)
    (rand : Nat → Nat) : RegisterOutcome × Option (List Doc) × List StoreOp :=
  match dbOpt with
  | none => (.httpError 500 "Database not configured", none, [])
  | some store =>
    match find_one store email with
    | some _ =>
      (.httpError 400 "Email already registered", some store, [.find email])
    | none =>
      let doc := registerDoc email password rand
      let res := create_document store doc
      (.success res.1 email, some res.2, [.find email, .insert doc])

/-- C7: with the database handle absent, `register` fails with the
500-equivalent "Database not configured" error and performs no store
operation at all — no find and no insert. -/
theorem C7_register_unconfigured (email password : String) (rand : Nat → Nat) :
    register none email password rand =
      (.httpError 500 "Database not configured", none, []) :=
  rfl

/-- C1: if the store already holds a record with the given email, `register`
fails with the 400-equivalent "Email already registered" error, leaves the
store unchanged and performs no insert; with no matching record it succeeds
and inserts exactly one record. -/
theorem C1_register_duplicate_email (store : List Doc)
    (email password : String) (rand : Nat → Nat) :
    ((∃ d ∈ store, d.lookup "email" = some email) →
       register (some store) email password rand =
         (.httpError 400 "Email already registered", some store,
          [.find email])) ∧
    ((∀ d ∈ store, d.lookup "email" ≠ some email) →
       register (some store) email password rand =
         (.success (toString store.length) email,
          some (store ++ [registerDoc email password rand]),
          [.find email, .insert (registerDoc email password rand)])) := by
  constructor
  · intro h
    have hs : (find_one store email).isSome := by
      rw [find_one, List.find?_isSome]
      obtain ⟨d, hd, he⟩ := h
      exact ⟨d, hd, by simp [he]⟩
    obtain ⟨d, hd⟩ := Option.isSome_iff_exists.mp hs
    simp [register, hd]
  · intro h
    have hn : find_one store email = none := by
      rw [find_one, List.find?_eq_none]
      intro d hd
      simpa using h d hd
    simp [register, hn, create_document]

theorem C1_register_duplicate_email_witness :
    register (some [[("email", "a@b.com")]]) "a@b.com" "pw" rand0 =
      (.httpError 400 "Email already registered",
       some [[("email", "a@b.com")]], [.find "a@b.com"]) ∧
    register (some []) "a@b.com" "pw" rand0 =
      (.success (toString ([] : List Doc).length) "a@b.com",
       some ([] ++ [registerDoc "a@b.com" "pw" rand0]),
       [.find "a@b.com", .insert (registerDoc "a@b.com" "pw" rand0)]) :=
  ⟨(C1_register_duplicate_email [[("email", "a@b.com")]] "a@b.com" "pw" rand0).1
     ⟨[("email", "a@b.com")], by simp, by simp⟩,
   (C1_register_duplicate_email [] "a@b.com" "pw" rand0).2 (by simp)⟩

/-- C2: on a configured store with no record for the email, `register`
returns the 201-equivalent success body whose id is the identifier assigned
by the store insert and whose email is the request email, inserting exactly
one record whose `provider` field is `"email"`; every failure path leaves
the handle unchanged and performs zero inserts. -/
theorem C2_register_success_shape :
    (∀ store email password rand, find_one store email = none →
       register (some store) email password rand =
         (.success (create_document store (registerDoc email password rand)).1
            email,
          some (create_document store (registerDoc email password rand)).2,
          [.find email, .insert (registerDoc email password rand)]) ∧
       (registerDoc email password rand).lookup "provider" = some "email" ∧
       countInserts [.find email, .insert (registerDoc email password rand)] = 1 ∧
       (create_document store (registerDoc email password rand)).2.length =
         store.length + 1) ∧
    (∀ dbOpt email password rand st d db2 tr,
       register dbOpt email password rand = (.httpError st d, db2, tr) →
       db2 = dbOpt ∧ countInserts tr = 0) := by
  constructor
  · intro store email password rand hn
    refine ⟨by simp [register, hn], rfl, rfl, by simp [create_document]⟩
  · intro dbOpt email password rand st d db2 tr h
    cases dbOpt with
    | none =>
      injection h with h1 h2
      injection h2 with h2 h3
      subst h2
      subst h3
      exact ⟨rfl, rfl⟩
    | some store =>
      cases hf : find_one store email with
      | some d0 =>
        simp only [register, hf] at h
        injection h with h1 h2
        injection h2 with h2 h3
        subst h2
        subst h3
        exact ⟨rfl, rfl⟩
      | none =>
        simp only [register, hf] at h
        injection h with h1 h2
        exact absurd h1 (by simp)

theorem C2_register_success_shape_witness :
    register (some []) "a@b.com" "pw" rand0 =
      (.success (create_document [] (registerDoc "a@b.com" "pw" rand0)).1
         "a@b.com",
       some (create_document [] (registerDoc "a@b.com" "pw" rand0)).2,
       [.find "a@b.com", .insert (registerDoc "a@b.com" "pw" rand0)]) ∧
    ((register (some [[("email", "a@b.com")]]) "a@b.com" "pw" rand0).2.1 =
       some [[("email", "a@b.com")]] ∧
     countInserts (register (some [[("email", "a@b.com")]]) "a@b.com" "pw"
       rand0).2.2 = 0) :=
  ⟨(C2_register_success_shape.1 [] "a@b.com" "pw" rand0 rfl).1,
   C2_register_success_shape.2 (some [[("email", "a@b.com")]]) "a@b.com" "pw"
     rand0 400 "Email already registered" (some [[("email", "a@b.com")]])
     [.find "a@b.com"] (by simp [register, find_one])⟩

/-- C10: every document the registration flow inserts has exactly the four
fields `email`, `password_salt`, `password_hash`, `provider`, holds no
`password` field, and every stored value is the request email, one of the
two hasher outputs, or the literal `"email"` — the plaintext password is
stored only through the key-derivation function. -/
theorem C10_inserted_doc_fields (dbOpt : Option (List Doc))
    (email password : String) (rand : Nat → Nat) (doc : Doc)
    (h : StoreOp.insert doc ∈ (register dbOpt email password rand).2.2) :
    doc.map Prod.fst = ["email", "password_salt", "password_hash", "provider"] ∧
    doc.lookup "password" = none ∧
    (∀ kv ∈ doc, kv.2 = email ∨ kv.2 = (hash_password_fresh password rand).1 ∨
       kv.2 = (hash_password_fresh password rand).2 ∨ kv.2 = "email") := by
  cases dbOpt with
  | none => simp [register] at h
  | some store =>
    cases hf : find_one store email with
    | some d0 => simp [register, hf] at h
    | none =>
      simp only [register, hf, List.mem_cons, List.not_mem_nil, or_false] at h
      rcases h with h | h
      · exact absurd h (by simp)
      · have hdoc : doc = registerDoc email password rand := by
          injection h
        subst hdoc
        refine ⟨rfl, rfl, ?_⟩
        intro kv hkv
        simp only [registerDoc, List.mem_cons, List.not_mem_nil, or_false] at hkv
        rcases hkv with rfl | rfl | rfl | rfl
        · exact Or.inl rfl
        · exact Or.inr (Or.inl rfl)
        · exact Or.inr (Or.inr (Or.inl rfl))
        · exact Or.inr (Or.inr (Or.inr rfl))

theorem C10_inserted_doc_fields_witness :
    (registerDoc "a@b.com" "pw" rand0).map Prod.fst =
      ["email", "password_salt", "password_hash", "provider"] :=
  (C10_inserted_doc_fields (some []) "a@b.com" "pw" rand0
    (registerDoc "a@b.com" "pw" rand0) (by simp [register, find_one])).1

/-- A JSON-ish value in the health-probe response body: a string or a list
of collection names. -/
inductive JVal where
  | str (s : String)
  | arr (xs : List String)
deriving DecidableEq

/-- Python dict assignment `d[k] = v`, preserving insertion order when the
key already exists. -/
def setKey (d : List (String × JVal)) (k : String) (v : JVal) :
    List (String × JVal) :=
  match d with
  | [] => [(k, v)]
  | (k0, v0) :: rest =>
    if k0 = k then (k, v) :: rest else (k0, v0) :: setKey rest k v

/-- Environment seen by the health probe: whether the database handle is
present, whether the two configuration variables are set, and the behaviour
of `db.list_collection_names()` — a list of names, or an exception carrying
a message (`Except.error`). -/
structure TestEnv where
  dbPresent : Bool
  databaseUrlSet : Bool
  databaseNameSet : Bool
  listCollectionNames : Except String (List String)

/-- Python string slicing `s[:k]`, by code point. -/
def pySlice (s : String) (k : Nat) : String :=
  ⟨s.data.take k⟩

/-- Model of `test_database` (src/main.py lines 48-74): builds the response
dict in source order; the inner `try` catches any exception raised while
listing collection names, so the handler is total — it returns a response
for every store behaviour. -/
def test_database (env : TestEnv) : List (String × JVal) :=
  let response : List (String × JVal) :=
    [("backend", .str "✅ Running"),
     ("database", .str "❌ Not Available"),
     ("database_url", .str "❌ Not Set"),
     ("database_name", .str "❌ Not Set"),
     ("connection_status", .str "Not Connected"),
     ("collections", .arr [])]
  if env.dbPresent then
    let r1 := setKey response "database" (.str "✅ Available")
    let r2 := setKey r1 "database_url"
      (.str (if env.databaseUrlSet then "✅ Set" else "❌ Not Set"))
    let r3 := setKey r2 "database_name"
      (.str (if env.databaseNameSet then "✅ Set" else "❌ Not Set"))
    match env.listCollectionNames with
    | .ok collections =>
      let r4 := setKey r3 "collections" (.arr (collections.take 10))
      let r5 := setKey r4 "database" (.str "✅ Connected & Working")
      setKey r5 "connection_status" (.str "Connected")
    | .error e =>
      setKey r3 "database" (.str ("⚠️ Connected but Error: " ++ pySlice e 80))
  else
    setKey response "database" (.str "⚠️ Available but not initialized")

theorem pySlice_length_le (s : String) (k : Nat) : (pySlice s k).length ≤ k := by
  show (s.data.take k).length ≤ k
  simp [List.length_take]

/-- C6: the health probe is total over every store behaviour; its response
always carries the six fields in order, the collections list never exceeds
10 entries, and a listing exception is reported in the `database` field
with its message truncated to at most 80 characters. -/
theorem C6_health_probe_total (env : TestEnv) :
    (test_database env).map Prod.fst =
      ["backend", "database", "database_url", "database_name",
       "connection_status", "collections"] ∧
    (∀ xs, (test_database env).lookup "collections" = some (.arr xs) →
       xs.length ≤ 10) ∧
    (∀ e, env.listCollectionNames = .error e → env.dbPresent = true →
       (test_database env).lookup "database" =
         some (.str ("⚠️ Connected but Error: " ++ pySlice e 80)) ∧
       (pySlice e 80).length ≤ 80) := by
  obtain ⟨dbp, us, ns, lc⟩ := env
  cases dbp with
  | false =>
    refine ⟨by simp [test_database, setKey], ?_, ?_⟩
    · intro xs hxs
      simp only [test_database, setKey] at hxs
      simp only [List.lookup] at hxs
      simp at hxs
      subst hxs
      decide
    · intro e _ hcon
      exact absurd hcon (by simp)
  | true =>
    cases lc with
    | ok cols =>
      refine ⟨by cases us <;> cases ns <;> simp [test_database, setKey], ?_, ?_⟩
      · intro xs hxs
        cases us <;> cases ns <;>
          · simp only [test_database, setKey] at hxs
            simp only [List.lookup] at hxs
            simp at hxs
            rw [← hxs]
            simp [List.length_take]
      · intro e hcon
        exact absurd hcon (by simp)
    | error e0 =>
      refine ⟨by cases us <;> cases ns <;> simp [test_database, setKey], ?_, ?_⟩
      · intro xs hxs
        cases us <;> cases ns <;>
          · simp only [test_database, setKey] at hxs
            simp only [List.lookup] at hxs
            simp at hxs
            subst hxs
            decide
      · intro e he _
        have he0 : e0 = e := by injection he
        subst he0
        refine ⟨?_, pySlice_length_le e0 80⟩
        cases us <;> cases ns <;>
          · simp only [test_database, setKey]
            simp [List.lookup]

/-- An error message longer than 80 characters, for instantiating the
truncation property. -/
def msg100 : String :=
  String.mk (List.replicate 100 'x')

/-- A probe environment whose collection listing raises. -/
def env0 : TestEnv :=
  ⟨true, false, false, .error msg100⟩

theorem C6_health_probe_total_witness :
    (test_database env0).map Prod.fst =
      ["backend", "database", "database_url", "database_name",
       "connection_status", "collections"] ∧
    ([] : List String).length ≤ 10 ∧
    (test_database env0).lookup "database" =
      some (.str ("⚠️ Connected but Error: " ++ pySlice msg100 80)) ∧
    (pySlice msg100 80).length ≤ 80 :=
  ⟨(C6_health_probe_total env0).1,
   (C6_health_probe_total env0).2.1 [] (by decide),
   ((C6_health_probe_total env0).2.2 msg100 rfl rfl).1,
   ((C6_health_probe_total env0).2.2 msg100 rfl rfl).2⟩

/-- The fixed (origin, destination) list in `deals_streamer`
(src/main.py lines 107-109). -/
def cities : List (String × String) :=
  [("NYC", "Paris"), ("Tokyo", "Seoul"), ("Berlin", "Rome"),
   ("SF", "Honolulu"), ("Dubai", "Sydney"), ("LA", "Mexico City")]

/-- A JSON value of the deal envelope. -/
inductive Json where
  | str (s : String)
  | num (n : Nat)
  | obj (fields : List (String × Json))

/-- One loop body of `deals_streamer` (src/main.py lines 112-115): `t1` and
`t2` are the two successive `int(datetime.utcnow().timestamp())` readings,
used for the route pair and for the price respectively. -/
def dealMessage (t1 t2 : Nat) : Json :=
  let pair := cities.getD (t1 % cities.length) ("", "")
  .obj [("type", .str "deal"),
        ("payload", .obj
          [("route", .str (pair.1 ++ " → " ++ pair.2)),
           ("destination", .str pair.2),
           ("price", .num (199 + t2 % 500))])]

/-- C5: a tick taken at Unix timestamp `t` emits exactly the envelope
`{type: "deal", payload: {route, destination, price}}` with the city pair
indexed at `t mod 6` in the fixed six-element list, the route rendered as
"origin → destination", the destination the second element of that pair,
and the price `199 + (t mod 500)`. -/
theorem C5_deal_tick (t : Nat) :
    cities.length = 6 ∧
    dealMessage t t =
      .obj [("type", .str "deal"),
            ("payload", .obj
              [("route", .str ((cities.getD (t % 6) ("", "")).1 ++ " → " ++
                  (cities.getD (t % 6) ("", "")).2)),
               ("destination", .str (cities.getD (t % 6) ("", "")).2),
               ("price", .num (199 + t % 500))])] :=
  ⟨rfl, rfl⟩

/-- Outcome of one send attempt on the WebSocket transport: the frame was
delivered, or the transport raised `WebSocketDisconnect`. -/
inductive SendResult where
  | delivered
  | disconnected
deriving DecidableEq

/-- End state of a finite observation of the streamer loop. -/
inductive StreamEnd where
  | stillStreaming
  | closedOk
deriving DecidableEq

/-- Model of the `while True` loop in `deals_streamer` (src/main.py lines
110-118), run against a finite schedule of iterations: each event carries
the two clock readings of that iteration and whether the send raised the
disconnect signal.  Returns the frames delivered and how the observation
ended: `closedOk` models catching `WebSocketDisconnect` and returning
normally; `stillStreaming` means the schedule ran out with the loop still
running. -/
def deals_streamer : List (Nat × Nat × SendResult) → List Json × StreamEnd
  | [] => ([], .stillStreaming)
  | (t1, t2, r) :: rest =>
    match r with
    | .disconnected => ([], .closedOk)
    | .delivered =>
      let res := deals_streamer rest
      (dealMessage t1 t2 :: res.1, res.2)

/-- C8: the streamer loop ends in the `Closed` state exactly when some send
raises the disconnect signal — it catches the signal and returns normally —
and on a schedule with no disconnect it is still streaming after every
finite number of iterations, having emitted one frame per iteration: the
loop has no iteration bound of its own. -/
theorem C8_streamer_disconnect_only (events : List (Nat × Nat × SendResult)) :
    ((deals_streamer events).2 = .closedOk ↔
       ∃ e ∈ events, e.2.2 = SendResult.disconnected) ∧
    ((∀ e ∈ events, e.2.2 = SendResult.delivered) →
       (deals_streamer events).2 = .stillStreaming ∧
       (deals_streamer events).1.length = events.length) := by
  induction events with
  | nil =>
    exact ⟨by simp [deals_streamer], fun _ => ⟨rfl, rfl⟩⟩
  | cons ev rest ih =>
    obtain ⟨t1, t2, r⟩ := ev
    cases r with
    | disconnected =>
      refine ⟨by simp [deals_streamer], fun hall => ?_⟩
      exact absurd (hall (t1, t2, .disconnected) (by simp)) (by simp)
    | delivered =>
      constructor
      · show (deals_streamer rest).2 = .closedOk ↔ _
        rw [ih.1]
        simp
      · intro hall
        have hrest := ih.2 (fun e he => hall e (by simp [he]))
        refine ⟨hrest.1, ?_⟩
        show (dealMessage t1 t2 :: (deals_streamer rest).1).length =
          rest.length + 1
        rw [List.length_cons, hrest.2]

/-- A schedule whose second send hits a disconnect. -/
def events1 : List (Nat × Nat × SendResult) :=
  [(0, 0, .delivered), (5, 5, .disconnected)]

/-- A schedule with no disconnect. -/
def events2 : List (Nat × Nat × SendResult) :=
  [(0, 0, .delivered), (2, 2, .delivered)]

theorem C8_streamer_disconnect_only_witness :
    (deals_streamer events1).2 = .closedOk ∧
    ((deals_streamer events2).2 = .stillStreaming ∧
     (deals_streamer events2).1.length = events2.length) :=
  ⟨(C8_streamer_disconnect_only events1).1.mpr
     ⟨(5, 5, .disconnected), by decide, rfl⟩,
   (C8_streamer_disconnect_only events2).2 (by decide)⟩
